import Mathlib

/-!
# Verification of the factForge backend core against its specification

Shallow embedding of the factForge backend (Python) in Lean 4, together with
theorems settling the frozen claims about it.  Every definition is translated
from the corresponding source function; definitions marked `spec:` restate the
specification's wording for refinement comparisons.

Covered source files:
* `api/app/core/audit.py` — HMAC-signed audit log (`sign_payload`,
  `create_audit_entry`, `verify_audit_signature`);
* `api/app/routes/review.py` — review queue actions (`review_action`,
  `assign_review`);
* `api/app/routes/check.py` — check pipeline (`detect_language`,
  `search_similar_claims`, verdict assembly);
* `llm/llm_service.py`, `llm/unified_llm_service.py` — LLM response plumbing;
* `workers/ingest_worker/main.py` — classification routing and vector storage;
* `workers/enrichment_worker/main.py` — language heuristics, heuristic score,
  message acknowledgement policy.
-/

namespace FactForge

/-! ## JSON values and Python `json.dumps(·, sort_keys=True, ensure_ascii=False)`

The audit payloads are JSON-representable dictionaries.  Numbers are modelled
as integers (the payloads written by the repository carry strings, integers,
booleans and nulls).  `dumps` reproduces Python's `json.dumps` with
`sort_keys=True`, `ensure_ascii=False` and the default separators
`(", ", ": ")`. -/

inductive Json where
  | null : Json
  | bool (b : Bool) : Json
  | num (n : Int) : Json
  | str (s : String) : Json
  | arr (xs : List Json) : Json
  | obj (fields : List (String × Json)) : Json

/-- Byte of a hex digit, lowercase, as Python's `hexdigest` emits them. -/
def hexDigit (n : Nat) : Char :=
  if n < 10 then Char.ofNat (48 + n) else Char.ofNat (87 + n)

/-- Python's `json` escaping of one character with `ensure_ascii=False`:
`"` and `\` are escaped, the named control escapes are used for
`\b \t \n \f \r`, remaining control characters become `\u00XX`, and every
other character (ASCII or not) is emitted literally. -/
def jsonEscapeChar (c : Char) : List Char :=
  if c = '"' then ['\\', '"']
  else if c = '\\' then ['\\', '\\']
  else if c = Char.ofNat 8 then ['\\', 'b']
  else if c = Char.ofNat 9 then ['\\', 't']
  else if c = Char.ofNat 10 then ['\\', 'n']
  else if c = Char.ofNat 12 then ['\\', 'f']
  else if c = Char.ofNat 13 then ['\\', 'r']
  else if c.toNat < 32 then
    ['\\', 'u', '0', '0', hexDigit (c.toNat / 16), hexDigit (c.toNat % 16)]
  else [c]

/-- A JSON string literal: quotes around the escaped characters. -/
def jsonQuote (s : String) : String :=
  ⟨'"' :: (s.data.map jsonEscapeChar).flatten ++ ['"']⟩

/-- Insert a rendered field into a key-sorted list (Python compares strings
by code points, which is exactly `String.lt`). -/
def insertFieldSorted (p : String × String) : List (String × String) → List (String × String)
  | [] => [p]
  | q :: rest => if p.1 < q.1 then p :: q :: rest else q :: insertFieldSorted p rest

/-- Sort rendered object fields by key, as `sort_keys=True` does.  Each
value's serialization is independent of its position, so sorting the rendered
fields gives the same output as serializing in sorted order. -/
def sortFields (l : List (String × String)) : List (String × String) :=
  l.foldr insertFieldSorted []

/-- Join serialized pieces with a separator. -/
def joinSep (sep : String) : List String → String
  | [] => ""
  | [x] => x
  | x :: y :: rest => x ++ sep ++ joinSep sep (y :: rest)

mutual

/-- `json.dumps(v, sort_keys=True, ensure_ascii=False)`: keys sorted
lexicographically, Unicode emitted literally, separators `", "` / `": "`. -/
def dumps : Json → String
  | .null => "null"
  | .bool true => "true"
  | .bool false => "false"
  | .num n => toString n
  | .str s => jsonQuote s
  | .arr xs => "[" ++ joinSep ", " (dumpsList xs) ++ "]"
  | .obj fields =>
      "\x7b" ++
        joinSep ", " ((sortFields (dumpsFields fields)).map
          (fun kv => jsonQuote kv.1 ++ ": " ++ kv.2)) ++ "\x7d"

def dumpsList : List Json → List String
  | [] => []
  | x :: rest => dumps x :: dumpsList rest

def dumpsFields : List (String × Json) → List (String × String)
  | [] => []
  | (k, v) :: rest => (k, dumps v) :: dumpsFields rest

end

/-! ## UTF-8 encoding (`str.encode('utf-8')`) -/

/-- UTF-8 bytes of one Unicode scalar value. -/
def utf8Char (c : Char) : List Nat :=
  let n := c.toNat
  if n < 128 then [n]
  else if n < 2048 then [192 + n / 64, 128 + n % 64]
  else if n < 65536 then [224 + n / 4096, 128 + n / 64 % 64, 128 + n % 64]
  else [240 + n / 262144, 128 + n / 4096 % 64, 128 + n / 64 % 64, 128 + n % 64]

/-- UTF-8 bytes of a string. -/
def utf8 (s : String) : List Nat :=
  (s.data.map utf8Char).flatten

/-! ## SHA-256 and HMAC-SHA256 (`hashlib.sha256`, `hmac.new(..., hashlib.sha256)`)

Straight transcription of FIPS 180-4, over `Nat` with explicit reduction
modulo `2 ^ 32`.  Bytes are `Nat` values below 256. -/

/-- Truncate to a 32-bit word. -/
def w32 (n : Nat) : Nat := n % 4294967296

/-- Rotate a 32-bit word right by `n` bits. -/
def rotr (n x : Nat) : Nat := w32 (x / 2 ^ n + x * 2 ^ (32 - n))

/-- Shift a 32-bit word right by `n` bits. -/
def shr (n x : Nat) : Nat := x / 2 ^ n

/-- Bitwise complement of a 32-bit word. -/
def wnot (x : Nat) : Nat := Nat.xor x 4294967295

/-- SHA-256 round constants (FIPS 180-4 §4.2.2, written in decimal). -/
def shaK : List Nat :=
  [1116352408, 1899447441, 3049323471, 3921009573, 961987163,
   1508970993, 2453635748, 2870763221, 3624381080, 310598401,
   607225278, 1426881987, 1925078388, 2162078206, 2614888103,
   3248222580, 3835390401, 4022224774, 264347078, 604807628,
   770255983, 1249150122, 1555081692, 1996064986, 2554220882,
   2821834349, 2952996808, 3210313671, 3336571891, 3584528711,
   113926993, 338241895, 666307205, 773529912, 1294757372,
   1396182291, 1695183700, 1986661051, 2177026350, 2456956037,
   2730485921, 2820302411, 3259730800, 3345764771, 3516065817,
   3600352804, 4094571909, 275423344, 430227734, 506948616,
   659060556, 883997877, 958139571, 1322822218, 1537002063,
   1747873779, 1955562222, 2024104815, 2227730452, 2361852424,
   2428436474, 2756734187, 3204031479, 3329325298]

/-- Initial SHA-256 state (FIPS 180-4 §5.3.3, written in decimal). -/
def shaH0 : List Nat :=
  [1779033703, 3144134277, 1013904242, 2773480762,
   1359893119, 2600822924, 528734635, 1541459225]

/-- Big-endian 8-byte encoding of a length in bits. -/
def be64 (n : Nat) : List Nat :=
  [n / 2 ^ 56 % 256, n / 2 ^ 48 % 256, n / 2 ^ 40 % 256, n / 2 ^ 32 % 256,
   n / 2 ^ 24 % 256, n / 2 ^ 16 % 256, n / 2 ^ 8 % 256, n % 256]

/-- SHA-256 padding: `0x80`, zeros to 56 mod 64, then the bit length. -/
def sha256pad (msg : List Nat) : List Nat :=
  let len := msg.length
  let zeros := (64 + 55 - len % 64) % 64
  msg ++ 128 :: List.replicate zeros 0 ++ be64 (len * 8)

/-- Group bytes into big-endian 32-bit words. -/
def bytesToWords : List Nat → List Nat
  | a :: b :: c :: d :: rest => (((a * 256 + b) * 256 + c) * 256 + d) :: bytesToWords rest
  | _ => []

/-- Split a list into chunks of 16 words (one 512-bit block each; a padded
message always splits exactly). -/
def wordBlocks : List Nat → List (List Nat)
  | w1 :: w2 :: w3 :: w4 :: w5 :: w6 :: w7 :: w8 ::
      w9 :: w10 :: w11 :: w12 :: w13 :: w14 :: w15 :: w16 :: rest =>
      [w1, w2, w3, w4, w5, w6, w7, w8, w9, w10, w11, w12, w13, w14, w15, w16] ::
        wordBlocks rest
  | [] => []
  | ws => [ws]

/-- Extend a 16-word block to the 64-word message schedule. -/
def shaSchedule (block : List Nat) : Array Nat :=
  (List.range 48).foldl
    (fun w i =>
      let s0 := Nat.xor (Nat.xor (rotr 7 (w.getD (i + 1) 0)) (rotr 18 (w.getD (i + 1) 0)))
        (shr 3 (w.getD (i + 1) 0))
      let s1 := Nat.xor (Nat.xor (rotr 17 (w.getD (i + 14) 0)) (rotr 19 (w.getD (i + 14) 0)))
        (shr 10 (w.getD (i + 14) 0))
      w.push (w32 (w.getD i 0 + s0 + w.getD (i + 9) 0 + s1)))
    block.toArray

/-- One SHA-256 compression of a 512-bit block into the running state. -/
def shaCompress (state : List Nat) (block : List Nat) : List Nat :=
  let w := shaSchedule block
  let init := (state.getD 0 0, state.getD 1 0, state.getD 2 0, state.getD 3 0,
               state.getD 4 0, state.getD 5 0, state.getD 6 0, state.getD 7 0)
  let out := (List.range 64).foldl
    (fun st t =>
      let (a, b, c, d, e, f, g, h) := st
      let S1 := Nat.xor (Nat.xor (rotr 6 e) (rotr 11 e)) (rotr 25 e)
      let ch := Nat.xor (Nat.land e f) (Nat.land (wnot e) g)
      let t1 := w32 (h + S1 + ch + shaK.getD t 0 + w.getD t 0)
      let S0 := Nat.xor (Nat.xor (rotr 2 a) (rotr 13 a)) (rotr 22 a)
      let mj := Nat.xor (Nat.xor (Nat.land a b) (Nat.land a c)) (Nat.land b c)
      let t2 := w32 (S0 + mj)
      (w32 (t1 + t2), a, b, c, w32 (d + t1), e, f, g))
    init
  let (a, b, c, d, e, f, g, h) := out
  [w32 (state.getD 0 0 + a), w32 (state.getD 1 0 + b), w32 (state.getD 2 0 + c),
   w32 (state.getD 3 0 + d), w32 (state.getD 4 0 + e), w32 (state.getD 5 0 + f),
   w32 (state.getD 6 0 + g), w32 (state.getD 7 0 + h)]

/-- SHA-256 digest of a byte list, as 32 bytes. -/
def sha256 (msg : List Nat) : List Nat :=
  let blocks := wordBlocks (bytesToWords (sha256pad msg))
  let final := blocks.foldl shaCompress shaH0
  (final.map (fun word => [word / 2 ^ 24 % 256, word / 2 ^ 16 % 256,
    word / 2 ^ 8 % 256, word % 256])).flatten

/-- Lowercase hex rendering of a byte list (`hexdigest`). -/
def hexOfBytes (bs : List Nat) : String :=
  ⟨(bs.map (fun b => [hexDigit (b / 16 % 16), hexDigit (b % 16)])).flatten⟩

/-- HMAC-SHA256 over byte lists (RFC 2104): keys longer than the 64-byte
block are hashed first, the key is zero-padded to 64 bytes, and the digest is
`H((key ⊕ opad) ∥ H((key ⊕ ipad) ∥ msg))`. -/
def hmacSha256 (key msg : List Nat) : List Nat :=
  let key := if 64 < key.length then sha256 key else key
  let key := key ++ List.replicate (64 - key.length) 0
  let ipadded := key.map (fun b => Nat.xor b 54)
  let opadded := key.map (fun b => Nat.xor b 92)
  sha256 (opadded ++ sha256 (ipadded ++ msg))

/-! ## Audit log (`api/app/core/audit.py`) -/

/-- Default of the `HMAC_KEY` environment variable in `audit.py`. -/
def HMAC_KEY : String := "replace_with_random_hex_key_32_chars_minimum"

/-- `sign_payload`: HMAC-SHA256 of the canonical JSON of the payload, hex
encoded.  A payload is a JSON dictionary, given as its field list. -/
def sign_payload (payload : List (String × Json)) : String :=
  hexOfBytes (hmacSha256 (utf8 HMAC_KEY) (utf8 (dumps (Json.obj payload))))

/-- A stored audit row (`AuditLog`): id, event type, payload, signature.
Ids are modelled as naturals where the database uses UUIDs. -/
structure AuditRow where
  id : Nat
  event_type : String
  payload : List (String × Json)
  signature : String

/-- `create_audit_entry`: sign the payload and insert the row.  The freshly
inserted row is returned at the front of the store together with its id. -/
def create_audit_entry (event_type : String) (payload : List (String × Json))
    (store : List AuditRow) : List AuditRow × Nat :=
  let id := store.length
  (⟨id, event_type, payload, sign_payload payload⟩ :: store, id)

/-- `verify_audit_signature`: fetch the row by id (`False` when absent),
recompute the signature over the stored payload with the current key, and
compare (`hmac.compare_digest`; constant-time in Python, plain equality of
the two strings here). -/
def verify_audit_signature (audit_id : Nat) (store : List AuditRow) : Bool :=
  match store.find? (fun r => r.id == audit_id) with
  | none => false
  | some row => row.signature == sign_payload row.payload

/-- `GET /api/admin/audit/verify` (`admin.py`): always answers
`(audit_id, valid)` with the verification result, never a not-found error. -/
def verify_audit_signature_endpoint (audit_id : Nat) (store : List AuditRow) :
    Nat × Bool :=
  (audit_id, verify_audit_signature audit_id store)

/-! ## Language detection (`check.py:detect_language`,
`enrichment_worker/main.py:EnrichmentWorker._heuristic_language_detection`) -/

/-- Is `needle` a prefix of `haystack` (character lists)? -/
def charsStartWith : List Char → List Char → Bool
  | [], _ => true
  | _ :: _, [] => false
  | a :: as, b :: bs => a == b && charsStartWith as bs

/-- Substring containment, Python's `needle in haystack` on `str`. -/
def strContainsSub (haystack needle : String) : Bool :=
  go needle.data haystack.data
where
  go (n : List Char) : List Char → Bool
    | [] => n.isEmpty
    | c :: cs => charsStartWith n (c :: cs) || go n cs

/-- Python `str.lower()`.  The texts compared against the word lists are
ASCII or Indic-script, where `Char.toLower` agrees with Python. -/
def pyLower (s : String) : String := s.map Char.toLower

/-- The fixed English word list shared by both detectors. -/
def english_words : List String :=
  ["the", "and", "is", "in", "to", "of", "a", "that", "it", "with"]

/-- `check.py:detect_language`: Tamil script, then Devanagari, then Kannada,
each at confidence 0.9; otherwise English by word-list fraction when the
fraction exceeds 0.3, else `("en", 0.5)`. -/
def detect_language (text : String) : String × ℚ :=
  if text.data.any (fun c => '\u0B80' ≤ c && c ≤ '\u0BFF') then ("ta", 9/10)
  else if text.data.any (fun c => '\u0900' ≤ c && c ≤ '\u097F') then ("hi", 9/10)
  else if text.data.any (fun c => '\u0C80' ≤ c && c ≤ '\u0CFF') then ("kn", 9/10)
  else
    let text_lower := pyLower text
    let english_score : ℚ :=
      ((english_words.filter (fun w => strContainsSub text_lower w)).length : ℚ) /
        (english_words.length : ℚ)
    if 3/10 < english_score then ("en", english_score) else ("en", 1/2)

/-- `EnrichmentWorker._heuristic_language_detection`: the enrichment worker's
copy of the same heuristic. -/
def heuristic_language_detection (text : String) : String × ℚ :=
  if text.data.any (fun c => '\u0B80' ≤ c && c ≤ '\u0BFF') then ("ta", 9/10)
  else if text.data.any (fun c => '\u0900' ≤ c && c ≤ '\u097F') then ("hi", 9/10)
  else if text.data.any (fun c => '\u0C80' ≤ c && c ≤ '\u0CFF') then ("kn", 9/10)
  else
    let text_lower := pyLower text
    let english_score : ℚ :=
      ((english_words.filter (fun w => strContainsSub text_lower w)).length : ℚ) /
        (english_words.length : ℚ)
    if 3/10 < english_score then ("en", english_score) else ("en", 1/2)

/-- spec: language detection exactly as the claim words it — script ranges
with the given precedence, then English when **at least** 30% of the word
list occurs (confidence the fraction), else `("en", 0.5)`. -/
def spec_detect_language_claimed (text : String) : String × ℚ :=
  if text.data.any (fun c => '\u0B80' ≤ c && c ≤ '\u0BFF') then ("ta", 9/10)
  else if text.data.any (fun c => '\u0900' ≤ c && c ≤ '\u097F') then ("hi", 9/10)
  else if text.data.any (fun c => '\u0C80' ≤ c && c ≤ '\u0CFF') then ("kn", 9/10)
  else
    let fraction : ℚ :=
      ((english_words.filter (fun w => strContainsSub (pyLower text) w)).length : ℚ) / 10
    if 3/10 ≤ fraction then ("en", fraction) else ("en", 1/2)

/-- spec: the amended wording — identical except that the English word-list
branch requires **strictly more** than 30%. -/
def spec_detect_language_amended (text : String) : String × ℚ :=
  if text.data.any (fun c => '\u0B80' ≤ c && c ≤ '\u0BFF') then ("ta", 9/10)
  else if text.data.any (fun c => '\u0900' ≤ c && c ≤ '\u097F') then ("hi", 9/10)
  else if text.data.any (fun c => '\u0C80' ≤ c && c ≤ '\u0CFF') then ("kn", 9/10)
  else
    let fraction : ℚ :=
      ((english_words.filter (fun w => strContainsSub (pyLower text) w)).length : ℚ) / 10
    if 3/10 < fraction then ("en", fraction) else ("en", 1/2)

/-! ## Heuristic score (`EnrichmentWorker.compute_heuristic_score`) -/

/-- The output of `EnrichmentWorker.extract_patterns`: regex matches for
payment handles, phone numbers and currency amounts found in the text. -/
structure Patterns where
  upi_handles : List String
  phone_numbers : List String
  rupee_amounts : List String
deriving DecidableEq

/-- Scam keyword lists per language (`EnrichmentWorker.scam_keywords`). -/
def scam_keywords : List (String × List String) :=
  [("en", ["urgent", "limited time", "act now", "guaranteed", "free money",
           "lottery", "winner"]),
   ("hi", ["तत्काल", "सीमित समय", "अभी करें", "गारंटी", "मुफ्त पैसा", "लॉटरी", "विजेता"]),
   ("ta", ["அவசரம்", "வரம்புக்குட்பட்ட நேரம்", "இப்போது செய்யுங்கள்", "உத்தரவாதம்",
           "இலவச பணம்", "லாட்டரி", "வெற்றியாளர்"]),
   ("kn", ["ತುರ್ತು", "ಸೀಮಿತ ಸಮಯ", "ಈಗ ಮಾಡಿ", "ಖಾತರಿ", "ಉಚಿತ ಹಣ", "ಲಾಟರಿ", "ವಿಜೇತ"])]

/-- `self.scam_keywords.get(language, self.scam_keywords['en'])`. -/
def scam_keywords_for (language : String) : List String :=
  (((scam_keywords.find? (fun kv => kv.1 == language)).map (fun kv => kv.2)).getD
    (scam_keywords.headD ("en", [])).2)

/-- Urgency indicator word list. -/
def urgency_words : List String :=
  ["urgent", "immediate", "hurry", "limited", "expires"]

/-- `EnrichmentWorker.compute_heuristic_score`.  `daysOld` is the domain age
in days when `whois_data` carried a parseable `creation_date` (the
`datetime.strptime`/`datetime.now` computation is external to the model);
`none` covers both a missing date and a parse failure, which the source
swallows.  Floats are modelled exactly by `ℚ` (all weights are multiples of
0.5, so the Python float arithmetic is exact). -/
def compute_heuristic_score (text language : String) (patterns : Patterns)
    (daysOld : Option Nat) : ℚ :=
  let text_lower := pyLower text
  let keyword_score : ℚ :=
    2 * ((scam_keywords_for language).filter
      (fun k => strContainsSub text_lower (pyLower k))).length
  let urgency_score : ℚ :=
    (3/2) * (urgency_words.filter (fun w => strContainsSub text_lower w)).length
  let pattern_score : ℚ :=
    (if patterns.upi_handles.isEmpty then 0 else 3) +
    (if patterns.phone_numbers.isEmpty then 0 else 2) +
    (if patterns.rupee_amounts.isEmpty then 0 else 1)
  let domain_score : ℚ :=
    match daysOld with
    | none => 0
    | some d => if d < 30 then 5 else if d < 90 then 2 else 0
  min ((keyword_score + urgency_score + pattern_score + domain_score) * 10) 100

/-- spec: the heuristic score exactly as the claim words it — in particular
`+2` **per** phone number and `+1` **per** currency amount. -/
def spec_heuristic_score_claimed (text language : String) (patterns : Patterns)
    (daysOld : Option Nat) : ℚ :=
  let text_lower := pyLower text
  let s : ℚ :=
    2 * ((scam_keywords_for language).filter
      (fun k => strContainsSub text_lower (pyLower k))).length +
    (3/2) * (urgency_words.filter (fun w => strContainsSub text_lower w)).length +
    (if patterns.upi_handles.isEmpty then 0 else 3) +
    2 * patterns.phone_numbers.length +
    1 * patterns.rupee_amounts.length +
    (match daysOld with
     | none => 0
     | some d => if d < 30 then 5 else if d < 90 then 2 else 0)
  min (s * 10) 100

/-- spec: the amended wording — `+2` if **any** phone number is present and
`+1` if **any** currency amount is present; everything else unchanged. -/
def spec_heuristic_score_amended (text language : String) (patterns : Patterns)
    (daysOld : Option Nat) : ℚ :=
  let text_lower := pyLower text
  let s : ℚ :=
    2 * ((scam_keywords_for language).filter
      (fun k => strContainsSub text_lower (pyLower k))).length +
    (3/2) * (urgency_words.filter (fun w => strContainsSub text_lower w)).length +
    (if patterns.upi_handles.isEmpty then 0 else 3) +
    (if patterns.phone_numbers.isEmpty then 0 else 2) +
    (if patterns.rupee_amounts.isEmpty then 0 else 1) +
    (match daysOld with
     | none => 0
     | some d => if d < 30 then 5 else if d < 90 then 2 else 0)
  min (s * 10) 100

/-! ## Enrichment message handling (`EnrichmentWorker.process_crawled_item`,
`send_to_ingest_queue`, `start_consuming`)

The enrichment steps perform external I/O; for the acknowledgement claim
what matters is which step outcomes influence the broker acknowledgement.
`EnrichEnv` records the success of each effectful step for one message. -/

/-- Outcome reported to the broker for one consumed message. -/
inductive MsgOutcome where
  | ack : MsgOutcome
  | nack (requeue : Bool) : MsgOutcome
deriving DecidableEq

/-- Success/failure of the external effects during one
`process_crawled_item` run.  `htmlOk`/`ocrOk`/`whoisOk`/`hashOk` are the
best-effort enrichment steps (their failures are caught inside their own
helpers and replaced by empty results); `persistOk` is
`store_processed_item`, which re-raises on failure; `forwardOk` is the
publish inside `send_to_ingest_queue`, whose exception handler only logs. -/
structure EnrichEnv where
  htmlOk : Bool
  ocrOk : Bool
  whoisOk : Bool
  hashOk : Bool
  persistOk : Bool
  forwardOk : Bool
deriving DecidableEq

/-- The consumer callback in `EnrichmentWorker.start_consuming`, as the
broker outcome of one message together with whether the forward to
`ingest.queue` actually succeeded.  `process_crawled_item` returns `False`
(and the callback nacks without requeue) exactly when
`store_processed_item` raised; `send_to_ingest_queue` swallows its own
failure, so the callback still acks. -/
def enrich_consume_message (env : EnrichEnv) : MsgOutcome × Bool :=
  if env.persistOk then (MsgOutcome.ack, env.forwardOk)
  else (MsgOutcome.nack false, false)

/-! ## Ingest worker (`workers/ingest_worker/main.py`) -/

/-- A `crawled_items` row, restricted to the fields the ingest worker and
the review routes read and write. -/
structure ItemRow where
  id : Nat
  url : String
  clean_text : String
  label : String
  classifier_score : Option ℚ
deriving DecidableEq

/-- A `vectors` row: which document it indexes and the stored embedding. -/
structure VectorRow where
  doc_id : Nat
  embedding : List ℚ
deriving DecidableEq

/-- A `review_queue` row. -/
structure ReviewRow where
  id : Nat
  doc_id : Nat
  status : String
  priority : Nat
  note : Option String
  assigned_to : Option Nat
deriving DecidableEq

/-- The relational state the claims quantify over. -/
structure DB where
  items : List ItemRow
  vectors : List VectorRow
  review_queue : List ReviewRow
deriving DecidableEq

/-- Update every row matching the predicate (SQL `UPDATE ... WHERE`). -/
def updWhere {α : Type} (p : α → Bool) (f : α → α) (l : List α) : List α :=
  l.map (fun x => if p x then f x else x)

/-- `IngestWorker.thresholds`: per-language classification thresholds. -/
def ingest_thresholds : List (String × ℚ) :=
  [("hi", 90/100), ("ta", 90/100), ("kn", 90/100), ("en", 92/100)]

/-- `self.thresholds.get(language, 0.9)`. -/
def threshold_for (language : String) : ℚ :=
  ((ingest_thresholds.find? (fun kv => kv.1 == language)).map (fun kv => kv.2)).getD (90/100)

/-- The fallback branch of `IngestWorker.generate_embedding`: the 16 values
derived from the MD5 digest of the text (external hash, given here as the
argument) are padded with `0.0` to 384 entries and truncated to 384. -/
def generate_embedding (hashVals : List ℚ) : List ℚ :=
  (hashVals ++ List.replicate (384 - hashVals.length) 0).take 384

/-- `IngestWorker.add_to_review_queue`: insert a `pending` review row with
priority 5 when `score > 0.8`, else 3.  The note's `%.3f` float formatting
is abbreviated to `toString`. -/
def add_to_review_queue (db : DB) (doc_id : Nat) (score : ℚ) (language : String) : DB :=
  { db with review_queue := db.review_queue ++
      [{ id := db.review_queue.length,
         doc_id := doc_id,
         status := "pending",
         priority := if 8/10 < score then 5 else 3,
         note := some ("Auto-queued: score=" ++ toString score ++ ", lang=" ++ language),
         assigned_to := none }] }

/-- `IngestWorker.store_vector` (success path): generate the embedding and
insert a vector row for the document. -/
def store_vector (db : DB) (doc_id : Nat) (hashVals : List ℚ) : DB :=
  { db with vectors := db.vectors ++ [{ doc_id := doc_id, embedding := generate_embedding hashVals }] }

/-- `IngestWorker.process_ingest_item` with the external effects (database,
Milvus, LLM classifier) succeeding.  `s` is the value returned by
`classify_text` and `hashVals` the MD5-derived input of the embedding
fallback.  Returns the new state and the boolean the callback acks on.
The latest `crawled_items` row for the URL is the first match in `items`
(`ORDER BY created_at DESC LIMIT 1`). -/
def process_ingest_item (db : DB) (url language : String) (s : ℚ)
    (hashVals : List ℚ) : DB × Bool :=
  match db.items.find? (fun it => it.url == url) with
  | none => (db, false)
  | some item =>
    let t := threshold_for language
    if t ≤ s then
      let db1 := store_vector db item.id hashVals
      let its := updWhere (fun x => x.id == item.id)
        (fun x => { x with label := "scam", classifier_score := some s }) db1.items
      ({ db1 with items := its }, true)
    else if 6/10 ≤ s then
      let db1 := add_to_review_queue db item.id s language
      let its := updWhere (fun x => x.id == item.id)
        (fun x => { x with label := "pending", classifier_score := some s }) db1.items
      ({ db1 with items := its }, true)
    else
      let its := updWhere (fun x => x.id == item.id)
        (fun x => { x with label := "benign", classifier_score := some s }) db.items
      ({ db with items := its }, true)

/-! ## Review routes (`api/app/routes/review.py`) -/

/-- HTTP-level outcome of a review route call. -/
inductive ApiResult where
  | notFound : ApiResult
  | conflict : ApiResult
  | success (status : String) : ApiResult
deriving DecidableEq

/-- `review_action`: look up the review row and its crawled item (404 when
either is missing), then unconditionally set the review row's status to the
action string, record the acting reviewer and note, and update the item's
label (`approve → scam`, `reject → benign`, `escalate → priority 10`).
No status precondition is checked and no vector is written on approve. -/
def review_action (db : DB) (review_id : Nat) (action : String)
    (note : Option String) (reviewer : Nat) : DB × ApiResult :=
  match db.review_queue.find? (fun r => r.id == review_id) with
  | none => (db, ApiResult.notFound)
  | some r =>
    match db.items.find? (fun it => it.id == r.doc_id) with
    | none => (db, ApiResult.notFound)
    | some _ =>
      let upd := fun (x : ReviewRow) =>
        { x with
          status := action
          assigned_to := some reviewer
          note := note
          priority := if action == "escalate" then 10 else x.priority }
      let rq := updWhere (fun x => x.id == review_id) upd db.review_queue
      let its := updWhere (fun x => x.id == r.doc_id)
        (fun x =>
          if action == "approve" then { x with label := "scam" }
          else if action == "reject" then { x with label := "benign" }
          else x)
        db.items
      ({ db with review_queue := rq, items := its }, ApiResult.success action)

/-- `assign_review`: 404 when the review row is missing, 400 (`conflict`)
when it is already assigned to a different reviewer, otherwise assign it to
the caller and set the status to `in_review` — whatever the current status. -/
def assign_review (db : DB) (review_id : Nat) (user : Nat) : DB × ApiResult :=
  match db.review_queue.find? (fun r => r.id == review_id) with
  | none => (db, ApiResult.notFound)
  | some r =>
    if r.assigned_to.isSome && r.assigned_to != some user then (db, ApiResult.conflict)
    else
      let rq := updWhere (fun x => x.id == review_id)
        (fun x => { x with assigned_to := some user, status := "in_review" })
        db.review_queue
      ({ db with review_queue := rq }, ApiResult.success "in_review")

/-- The scam-implies-vector invariant of the specification: every item
labelled `scam` has a vector row referencing it, of the configured
dimension 384. -/
def ScamHasVector (db : DB) : Prop :=
  ∀ it ∈ db.items, it.label = "scam" →
    ∃ v ∈ db.vectors, v.doc_id = it.id ∧ v.embedding.length = 384

/-! ## Check pipeline retrieval slice (`check.py:check_claim`,
`search_similar_claims`) -/

/-- One evidence record returned by `search_similar_claims`. -/
structure Evidence where
  id : String
  url : String
  title : String
  snippet : String
  date : String
  language : String
  similarity : ℚ
deriving DecidableEq

/-- `search_similar_claims`: the vector search, returning
`min(top_k, 3)` records with ids `evidence_0`, `evidence_1`, … -/
def search_similar_claims (language : String) (top_k : Nat) : List Evidence :=
  (List.range (min top_k 3)).map (fun i =>
    { id := "evidence_" ++ toString i
      url := "https://example.com/evidence_" ++ toString i
      title := "Evidence " ++ toString i
      snippet := "This is evidence snippet " ++ toString i ++ " related to the claim"
      date := "2024-01-15"
      language := language
      similarity := 9/10 - (i : ℚ) / 10 })

/-- The evidence conversion done inside `call_llm_explainer` before handing
the items to the LLM service: `(title ++ ": " ++ snippet, url)` per item,
in the order of the retrieved list. -/
def evidence_for_llm (evidence : List Evidence) : List (String × String) :=
  evidence.map (fun e => (e.title ++ ": " ++ e.snippet, e.url))

/-- The retrieval-related slice of the `check_claim` handler state: the
evidence list, the exact input later given to the LLM, and the
`retrieved_ids` field of the response. -/
structure CheckRetrieval where
  evidence : List Evidence
  llm_input : List (String × String)
  retrieved_ids : List String
deriving DecidableEq

/-- Steps 1–4 and the `retrieved_ids` assembly of `check_claim` (success
path): detect the language when `auto`, retrieve with `top_k = 6`, convert
the evidence for the LLM, and list the evidence ids in the response. -/
def check_claim_retrieval (claim_text language : String) : CheckRetrieval :=
  let detected := if language == "auto" then (detect_language claim_text).1 else language
  let evidence := search_similar_claims detected 6
  { evidence := evidence
    llm_input := evidence_for_llm evidence
    retrieved_ids := evidence.map (fun e => e.id) }

/-! ## Verdict assembly (`llm_service.py`, `unified_llm_service.py`,
`check.py:call_llm_explainer`, `check_claim`)

LLM dictionaries are modelled as association lists of `Json` values; the
network and JSON parsing are external, so the model takes the dictionary
that `OllamaService.generate_json` produced — `[]` both for a parse failure
and for an LLM answer that was literally the empty object. -/

/-- Python `dict.get(k, default)` for our association lists. -/
def pyDictGet (d : List (String × Json)) (k : String) (dflt : Json) : Json :=
  match d.find? (fun kv => kv.1 == k) with
  | some kv => kv.2
  | none => dflt

/-- Python `dict.setdefault(k, v)`: insert only when the key is absent. -/
def pySetdefault (d : List (String × Json)) (k : String) (v : Json) :
    List (String × Json) :=
  if (d.find? (fun kv => kv.1 == k)).isSome then d else d ++ [(k, v)]

/-- The literal replacement dictionary used by
`OllamaService.generate_fact_check_response` when `generate_json` came back
empty. -/
def ollama_empty_response : List (String × Json) :=
  [("verdict", Json.str "UNVERIFIED"),
   ("trust_score", Json.num 0),
   ("reasons", Json.arr [Json.str "Unable to process claim"]),
   ("evidence_list", Json.arr []),
   ("confidence", Json.num 0),
   ("one_line_tip", Json.str "Please verify this information from reliable sources")]

/-- `OllamaService.generate_fact_check_response`, downstream of the LLM
call: replace an empty parse result by the fallback dictionary, then
`setdefault` the required fields. -/
def generate_fact_check_response (parsed : List (String × Json)) :
    List (String × Json) :=
  let response := if parsed.isEmpty then ollama_empty_response else parsed
  let response := pySetdefault response "verdict" (Json.str "UNVERIFIED")
  let response := pySetdefault response "trust_score" (Json.num 0)
  let response := pySetdefault response "reasons" (Json.arr [])
  let response := pySetdefault response "evidence_list" (Json.arr [])
  let response := pySetdefault response "confidence" (Json.num 0)
  pySetdefault response "one_line_tip" (Json.str "Please verify this information")

/-- `UnifiedLLMService._get_fallback_response`: the dictionary returned when
no LLM provider is available. -/
def unified_fallback_response : List (String × Json) :=
  [("verdict", Json.str "UNVERIFIED"),
   ("trust_score", Json.num 0),
   ("reasons", Json.arr [Json.str "LLM service unavailable"]),
   ("evidence_list", Json.arr []),
   ("confidence", Json.num 0),
   ("one_line_tip", Json.str "Please verify this information from reliable sources")]

/-- `UnifiedLLMService.generate_fact_check_response`: delegate to the
provider when one is reachable, else the fallback dictionary.  (Both
providers post-process identically, so a single `available` flag models
the provider selection.) -/
def unified_generate_fact_check_response (available : Bool)
    (parsed : List (String × Json)) : List (String × Json) :=
  if available then generate_fact_check_response parsed else unified_fallback_response

/-- `check.py:call_llm_explainer` (success path): call the unified service,
then `setdefault` the response fields again, with the retrieved evidence as
the default `evidence_list`. -/
def call_llm_explainer (available : Bool) (parsed : List (String × Json))
    (evidence : Json) : List (String × Json) :=
  let result := unified_generate_fact_check_response available parsed
  let result := pySetdefault result "verdict" (Json.str "UNVERIFIED")
  let result := pySetdefault result "trust_score" (Json.num 0)
  let result := pySetdefault result "confidence" (Json.num 0)
  let result := pySetdefault result "reasons" (Json.arr [])
  let result := pySetdefault result "evidence_list" evidence
  let result := pySetdefault result "one_line_tip"
    (Json.str "Please verify this information independently")
  pySetdefault result "suggested_action" (Json.str "Check multiple reliable sources")

/-- The `verdict` field of the `check_claim` response:
`llm_result.get("verdict", "UNVERIFIED")`. -/
def check_claim_verdict (available : Bool) (parsed : List (String × Json))
    (evidence : Json) : Json :=
  pyDictGet (call_llm_explainer available parsed evidence) "verdict" (Json.str "UNVERIFIED")

/-- The verdict enum of the specification. -/
def verdict_enum : List String :=
  ["TRUE", "FALSE", "MISLEADING", "UNVERIFIED", "PARTIALLY TRUE"]

/-- Is a JSON value one of the five verdict enum strings? -/
def isEnumVerdict (j : Json) : Bool :=
  match j with
  | Json.str s => verdict_enum.contains s
  | _ => false

/-! ## Concrete fixtures used by witnesses and counterexamples -/

/-- A crawled item as stored after enrichment, before classification. -/
def sample_item : ItemRow :=
  { id := 1, url := "u", clean_text := "lottery text", label := "pending",
    classifier_score := none }

/-- A database holding just `sample_item`. -/
def sample_db : DB := { items := [sample_item], vectors := [], review_queue := [] }

/-- A database with one pending item sitting in the review queue and no
vector rows. -/
def review_db : DB :=
  { items := [{ id := 1, url := "u", clean_text := "txt", label := "pending",
                classifier_score := some (7/10) }],
    vectors := [],
    review_queue := [{ id := 2, doc_id := 1, status := "pending", priority := 3,
                       note := none, assigned_to := none }] }

/-- A second copy of the one-pending-review database, for the review
state-machine scenario. -/
def review_db₂ : DB :=
  { items := [{ id := 1, url := "u", clean_text := "txt", label := "pending",
                classifier_score := some (7/10) }],
    vectors := [],
    review_queue := [{ id := 2, doc_id := 1, status := "pending", priority := 3,
                       note := none, assigned_to := none }] }

/-! ## Helper lemmas -/

/-- Membership in `updWhere`: each element either is the image of a matching
row or is an untouched non-matching row. -/
theorem mem_updWhere {α : Type} (p : α → Bool) (f : α → α) (l : List α) (x : α)
    (hx : x ∈ updWhere p f l) :
    (∃ y ∈ l, p y = true ∧ x = f y) ∨ (x ∈ l ∧ p x = false) := by
  obtain ⟨y, hy, hxy⟩ := List.mem_map.mp hx
  by_cases hp : p y = true
  · exact Or.inl ⟨y, hy, hp, by rw [← hxy, if_pos hp]⟩
  · refine Or.inr ?_
    have hb : p y = false := by simpa using hp
    have : x = y := by rw [← hxy, if_neg (by simp [hb])]
    subst this
    exact ⟨hy, hb⟩

/-- `find?` over an `updWhere` whose update preserves the predicate. -/
theorem find?_updWhere {α : Type} (p : α → Bool) (f : α → α) (l : List α)
    (hf : ∀ x, p (f x) = p x) :
    (updWhere p f l).find? p = (l.find? p).map f := by
  induction l with
  | nil => rfl
  | cons x xs ih =>
    simp only [updWhere, List.map_cons]
    by_cases hx : p x = true
    · rw [if_pos hx]
      rw [List.find?_cons_of_pos _ (by rw [hf]; exact hx), List.find?_cons_of_pos _ hx]
      rfl
    · rw [if_neg hx]
      rw [List.find?_cons_of_neg _ hx, List.find?_cons_of_neg _ hx]
      simpa [updWhere] using ih

/-- The generated embedding always has the Milvus collection dimension 384. -/
theorem length_generate_embedding (hv : List ℚ) :
    (generate_embedding hv).length = 384 := by
  simp [generate_embedding]
  omega

/-- Every per-language threshold (and the `dict.get` default) is at least
the review-queue cut-off 0.6. -/
theorem review_cutoff_le_threshold (language : String) :
    6/10 ≤ threshold_for language := by
  unfold threshold_for
  cases hq : ingest_thresholds.find? (fun kv => kv.1 == language) with
  | none => norm_num
  | some kv =>
    have hm := List.mem_of_find?_eq_some hq
    simp only [ingest_thresholds, List.mem_cons, List.not_mem_nil, or_false] at hm
    rcases hm with h | h | h | h <;> simp [h] <;> norm_num

/-- `find?` ignores an appended tail when the front already matches
nothing. -/
theorem find?_append_of_none {α : Type} (p : α → Bool) (l₁ l₂ : List α)
    (h : l₁.find? p = none) :
    (l₁ ++ l₂).find? p = l₂.find? p := by
  induction l₁ with
  | nil => simp
  | cons x xs ih =>
    rw [List.find?_eq_none] at h
    have hx : ¬ p x = true := h x (List.mem_cons_self x xs)
    rw [List.cons_append, List.find?_cons_of_neg _ hx]
    exact ih (List.find?_eq_none.mpr (fun a ha => h a (List.mem_cons_of_mem x ha)))

/-- Appending a field under a different key does not change a keyed
lookup. -/
theorem find?_key_append_single (d : List (String × Json)) (k k' : String)
    (v : Json) (h : (k' == k) = false) :
    (d ++ [(k', v)]).find? (fun kv => kv.1 == k) =
      d.find? (fun kv => kv.1 == k) := by
  induction d with
  | nil => simp [List.find?, h]
  | cons x xs ih =>
    cases hx : x.1 == k with
    | true => simp only [List.cons_append, List.find?_cons, hx]
    | false => simpa only [List.cons_append, List.find?_cons, hx] using ih

/-- `dict.get k` straight through a `setdefault` under a different key. -/
theorem pyDictGet_setdefault_ne (d : List (String × Json)) (k k' : String)
    (v dflt : Json) (h : (k' == k) = false) :
    pyDictGet (pySetdefault d k' v) k dflt = pyDictGet d k dflt := by
  unfold pySetdefault
  split
  · rfl
  · unfold pyDictGet
    rw [find?_key_append_single d k k' v h]

/-- `dict.get k dflt` after `setdefault k v` yields the stored value when
the key was present and `v` otherwise — i.e. `dict.get k v` on the original
dictionary. -/
theorem pyDictGet_setdefault_same (d : List (String × Json)) (k : String)
    (v dflt : Json) :
    pyDictGet (pySetdefault d k v) k dflt = pyDictGet d k v := by
  unfold pySetdefault pyDictGet
  by_cases hs : (d.find? (fun kv => kv.1 == k)).isSome
  · rw [if_pos hs]
    obtain ⟨kv, hkv⟩ := Option.isSome_iff_exists.mp hs
    rw [hkv]
  · rw [if_neg hs]
    have hn : d.find? (fun kv => kv.1 == k) = none :=
      Option.not_isSome_iff_eq_none.mp hs
    rw [find?_append_of_none _ _ _ hn, hn]
    simp [List.find?]

/-! ## Sanity test vectors for the hash implementation

These pin the `sha256`/`hmacSha256` model to the standard test vectors
(checked against `hashlib`/`hmac`). -/

set_option maxRecDepth 100000 in
/-- FIPS 180-4 test vector: SHA-256 of the empty message. -/
theorem sha256_vector_empty :
    hexOfBytes (sha256 (utf8 "")) =
      "e3b0c44298fc1c149afbf4c8996fb92427ae41e4649b934ca495991b7852b855" := by
  decide

set_option maxRecDepth 100000 in
/-- FIPS 180-4 test vector: SHA-256 of `"abc"`. -/
theorem sha256_vector_abc :
    hexOfBytes (sha256 (utf8 "abc")) =
      "ba7816bf8f01cfea414140de5dae2223b00361a396177a9cb410ff61f20015ad" := by
  decide

set_option maxRecDepth 400000 in
/-- RFC-style HMAC-SHA256 test vector (key `"key"`, the canonical fox
sentence). -/
theorem hmac_sha256_vector :
    hexOfBytes (hmacSha256 (utf8 "key")
        (utf8 "The quick brown fox jumps over the lazy dog")) =
      "f7bc83f430538424b13298e6aa6fb143ef4d59a14946175997479dbc2d1a3cd8" := by
  decide

/-! ## C1 — audit round-trip -/

/-- C1.  Audit round-trip: appending an audit entry with `create_audit_entry`
(which signs the canonical JSON of the payload via `sign_payload`,
HMAC-SHA256 with keys sorted and Unicode unescaped) and then verifying that
entry with `verify_audit_signature` (which recomputes the signature with the
same key and compares) returns `true`; the store is exactly the post-append
store, i.e. the row is unmodified between append and verify. -/
theorem audit_append_verify_roundtrip (store : List AuditRow)
    (event_type : String) (payload : List (String × Json)) :
    verify_audit_signature (create_audit_entry event_type payload store).2
      (create_audit_entry event_type payload store).1 = true := by
  simp [create_audit_entry, verify_audit_signature, List.find?_cons]

/-! ## C10 — verifying an unknown audit id -/

/-- C10.  Verifying the audit signature of an id for which no audit row
exists returns `false` rather than raising a not-found error, so the admin
verify endpoint answers `(audit_id, valid := false)` for unknown ids — the
same response shape and value as for any row whose verification fails
(e.g. a tampered row), making the two cases indistinguishable. -/
theorem audit_verify_unknown_id (store : List AuditRow) (audit_id : Nat)
    (h : store.find? (fun r => r.id == audit_id) = none) :
    verify_audit_signature audit_id store = false ∧
    verify_audit_signature_endpoint audit_id store = (audit_id, false) ∧
    (∀ store₂ : List AuditRow, verify_audit_signature audit_id store₂ = false →
      verify_audit_signature_endpoint audit_id store₂ = (audit_id, false)) := by
  refine ⟨?_, ?_, ?_⟩
  · simp [verify_audit_signature, h]
  · simp [verify_audit_signature_endpoint, verify_audit_signature, h]
  · intro store₂ h₂
    simp [verify_audit_signature_endpoint, h₂]

/-- Witness for C10 at the empty store and id 0. -/
theorem audit_verify_unknown_id_witness :
    ([] : List AuditRow).find? (fun r => r.id == 0) = none ∧
    (verify_audit_signature 0 [] = false ∧
     verify_audit_signature_endpoint 0 [] = (0, false) ∧
     (∀ store₂ : List AuditRow, verify_audit_signature 0 store₂ = false →
       verify_audit_signature_endpoint 0 store₂ = (0, false))) :=
  ⟨rfl, audit_verify_unknown_id [] 0 rfl⟩

/-! ## C7 — heuristic language detection -/

/-- C7 counterexample: on `"it is in"` exactly 3 of the 10 word-list words
occur, a fraction of exactly 30%.  The claim ("at least 30% … confidence
equal to that fraction") demands `("en", 3/10)`, but both implementations
use a strict comparison and return `("en", 1/2)`. -/
theorem detect_language_claimed_counterexample :
    spec_detect_language_claimed "it is in" = ("en", 3/10) ∧
    detect_language "it is in" = ("en", 1/2) ∧
    heuristic_language_detection "it is in" = ("en", 1/2) ∧
    spec_detect_language_claimed "it is in" ≠ detect_language "it is in" := by
  refine ⟨?_, ?_, ?_, ?_⟩ <;> with_unfolding_all decide

/-- C7 (amended).  Language detection is a deterministic function of the
text with the fixed precedence Tamil → Devanagari → Kannada → English, the
script hits at confidence 0.9, and the English word-list branch taken when
**strictly more** than 30% of the word list occurs (confidence the
fraction), else `("en", 0.5)`; the check route's `detect_language` and the
enrichment worker's `_heuristic_language_detection` implement the same
rules. -/
theorem detect_language_amended_spec (text : String) :
    detect_language text = spec_detect_language_amended text ∧
    heuristic_language_detection text = detect_language text := by
  constructor
  · have hlen : ((english_words.length : ℚ)) = 10 := by norm_num [english_words]
    simp only [detect_language, spec_detect_language_amended, hlen]
  · rfl

/-! ## C6 — heuristic score -/

/-- C6 counterexample: an empty text with two extracted phone numbers and
nothing else.  The claim's formula (`+2` per phone number) yields 40, but
`compute_heuristic_score` adds a flat `+2` when any phone number is present
and yields 20. -/
theorem heuristic_score_claimed_counterexample :
    compute_heuristic_score "" "en"
      { upi_handles := [], phone_numbers := ["9876543210", "9123456789"],
        rupee_amounts := [] } none = 20 ∧
    spec_heuristic_score_claimed "" "en"
      { upi_handles := [], phone_numbers := ["9876543210", "9123456789"],
        rupee_amounts := [] } none = 40 ∧
    spec_heuristic_score_claimed "" "en"
      { upi_handles := [], phone_numbers := ["9876543210", "9123456789"],
        rupee_amounts := [] } none ≠
      compute_heuristic_score "" "en"
        { upi_handles := [], phone_numbers := ["9876543210", "9123456789"],
          rupee_amounts := [] } none := by
  refine ⟨?_, ?_, ?_⟩ <;> with_unfolding_all decide

/-- C6 (amended).  The heuristic score equals the weighted sum — `+2` per
scam keyword present, `+1.5` per urgency marker present, `+3` if any
payment handle, `+2` if **any** phone number, `+1` if **any** currency
amount, `+5`/`+2` by domain age — multiplied by 10 and clamped to
`min(sum × 10, 100)`, hence always within `[0, 100]`. -/
theorem heuristic_score_amended_spec (text language : String) (p : Patterns)
    (d : Option Nat) :
    compute_heuristic_score text language p d =
      spec_heuristic_score_amended text language p d ∧
    0 ≤ compute_heuristic_score text language p d ∧
    compute_heuristic_score text language p d ≤ 100 := by
  refine ⟨?_, ?_, ?_⟩
  · simp only [compute_heuristic_score, spec_heuristic_score_amended]
    congr 1
    ring
  · simp only [compute_heuristic_score]
    refine le_min ?_ (by norm_num)
    refine mul_nonneg ?_ (by norm_num)
    refine add_nonneg (add_nonneg (add_nonneg (by positivity) (by positivity)) ?_) ?_
    · refine add_nonneg (add_nonneg ?_ ?_) ?_ <;> split <;> norm_num
    · rcases d with _ | dd
      · norm_num
      · dsimp only
        split <;> norm_num
        split <;> norm_num
  · simp only [compute_heuristic_score]
    exact min_le_right _ _

/-! ## C8 — enrichment acknowledgement -/

/-- C8 counterexample: persistence succeeds but the forward to
`ingest.queue` fails; `send_to_ingest_queue` swallows the failure, so the
consumer still acknowledges the upstream message — the ack is **not**
conditional on the forward having succeeded. -/
theorem enrich_ack_claimed_counterexample :
    enrich_consume_message
        { htmlOk := true, ocrOk := true, whoisOk := true, hashOk := true,
          persistOk := true, forwardOk := false } =
      (MsgOutcome.ack, false) := by
  decide

/-- C8 (amended).  The upstream message is acknowledged exactly when the
persistence step succeeded — the forward to `ingest.queue` is attempted
before the ack but its failure is swallowed and does not prevent the ack;
a persistence failure yields a negative acknowledgement without requeue;
and none of the best-effort enrichment steps influence the outcome. -/
theorem enrich_ack_amended_spec (env : EnrichEnv) :
    ((enrich_consume_message env).1 = MsgOutcome.ack ↔ env.persistOk = true) ∧
    (env.persistOk = false → enrich_consume_message env = (MsgOutcome.nack false, false)) ∧
    (∀ env' : EnrichEnv, env'.persistOk = env.persistOk →
      env'.forwardOk = env.forwardOk →
      enrich_consume_message env' = enrich_consume_message env) := by
  refine ⟨?_, ?_, ?_⟩
  · cases h : env.persistOk <;> simp [enrich_consume_message, h]
  · intro h
    simp [enrich_consume_message, h]
  · intro env' h1 h2
    simp [enrich_consume_message, h1, h2]

/-- Witness for C8 (amended) at a concrete environment (fields in order:
html, ocr, whois, hash, persist, forward) with a failed persistence step. -/
theorem enrich_ack_amended_spec_witness :
    ((enrich_consume_message ⟨true, false, true, true, false, true⟩).1 = MsgOutcome.ack ↔
      (⟨true, false, true, true, false, true⟩ : EnrichEnv).persistOk = true) ∧
    ((⟨true, false, true, true, false, true⟩ : EnrichEnv).persistOk = false →
      enrich_consume_message ⟨true, false, true, true, false, true⟩ =
        (MsgOutcome.nack false, false)) ∧
    (∀ env' : EnrichEnv,
      env'.persistOk = (⟨true, false, true, true, false, true⟩ : EnrichEnv).persistOk →
      env'.forwardOk = (⟨true, false, true, true, false, true⟩ : EnrichEnv).forwardOk →
      enrich_consume_message env' =
        enrich_consume_message ⟨true, false, true, true, false, true⟩) :=
  enrich_ack_amended_spec ⟨true, false, true, true, false, true⟩

/-! ## Branch equations for `process_ingest_item` -/

/-- Unknown URL: the worker reports failure and leaves the state alone. -/
theorem process_ingest_item_none_eq (db : DB) (url language : String) (s : ℚ)
    (hv : List ℚ) (h : db.items.find? (fun it => it.url == url) = none) :
    process_ingest_item db url language s hv = (db, false) := by
  simp only [process_ingest_item, h]

/-- Scam branch: at or above the threshold the item is relabelled and a
vector row is appended. -/
theorem process_ingest_item_scam_eq (db : DB) (url language : String) (s : ℚ)
    (hv : List ℚ) (item : ItemRow)
    (h : db.items.find? (fun it => it.url == url) = some item)
    (hts : threshold_for language ≤ s) :
    process_ingest_item db url language s hv =
      ({ items := updWhere (fun x => x.id == item.id)
            (fun x => { x with label := "scam", classifier_score := some s }) db.items,
         vectors := db.vectors ++ [{ doc_id := item.id, embedding := generate_embedding hv }],
         review_queue := db.review_queue }, true) := by
  simp only [process_ingest_item, h, store_vector]
  rw [if_pos hts]

/-- Review branch: between 0.6 and the threshold the item is relabelled
`pending` and a review row is appended. -/
theorem process_ingest_item_pending_eq (db : DB) (url language : String) (s : ℚ)
    (hv : List ℚ) (item : ItemRow)
    (h : db.items.find? (fun it => it.url == url) = some item)
    (hts : ¬ threshold_for language ≤ s) (h6 : (6/10 : ℚ) ≤ s) :
    process_ingest_item db url language s hv =
      ({ items := updWhere (fun x => x.id == item.id)
            (fun x => { x with label := "pending", classifier_score := some s }) db.items,
         vectors := db.vectors,
         review_queue := db.review_queue ++
           [{ id := db.review_queue.length, doc_id := item.id, status := "pending",
              priority := if 8/10 < s then 5 else 3,
              note := some ("Auto-queued: score=" ++ toString s ++ ", lang=" ++ language),
              assigned_to := none }] }, true) := by
  simp only [process_ingest_item, h, add_to_review_queue]
  rw [if_neg hts, if_pos h6]

/-- Benign branch: below 0.6 only the label and score change. -/
theorem process_ingest_item_benign_eq (db : DB) (url language : String) (s : ℚ)
    (hv : List ℚ) (item : ItemRow)
    (h : db.items.find? (fun it => it.url == url) = some item)
    (hts : ¬ threshold_for language ≤ s) (h6 : ¬ (6/10 : ℚ) ≤ s) :
    process_ingest_item db url language s hv =
      ({ items := updWhere (fun x => x.id == item.id)
            (fun x => { x with label := "benign", classifier_score := some s }) db.items,
         vectors := db.vectors,
         review_queue := db.review_queue }, true) := by
  simp only [process_ingest_item, h]
  rw [if_neg hts, if_neg h6]

/-! ## C4 — classification routing -/

/-- C4.  Classification routing: with the per-language thresholds defaulting
to `en = 0.92` and `hi = ta = kn = 0.90`, a consumed ingest message whose
URL resolves to an item routes by the classifier score `s`: at or above the
threshold the label becomes `scam` and a vector row is inserted; in
`[0.6, threshold)` the label becomes `pending` and a review entry with
status `pending` and priority `5` when `s > 0.8` else `3` is appended; and
below `0.6` the label becomes `benign` with no vector written.  External
effects (database, Milvus, classifier call) are modelled as succeeding. -/
theorem ingest_classification_routing (db : DB) (url language : String)
    (s : ℚ) (hv : List ℚ) (item : ItemRow)
    (h : db.items.find? (fun it => it.url == url) = some item) :
    (threshold_for "en" = 92/100 ∧ threshold_for "hi" = 90/100 ∧
     threshold_for "ta" = 90/100 ∧ threshold_for "kn" = 90/100) ∧
    (threshold_for language ≤ s →
      process_ingest_item db url language s hv =
        ({ items := updWhere (fun x => x.id == item.id)
              (fun x => { x with label := "scam", classifier_score := some s }) db.items,
           vectors := db.vectors ++ [{ doc_id := item.id, embedding := generate_embedding hv }],
           review_queue := db.review_queue }, true) ∧
      (∃ v ∈ (process_ingest_item db url language s hv).1.vectors,
        v.doc_id = item.id ∧ v.embedding.length = 384) ∧
      (∀ x ∈ (process_ingest_item db url language s hv).1.items,
        x.id = item.id → x.label = "scam" ∧ x.classifier_score = some s)) ∧
    (6/10 ≤ s → s < threshold_for language →
      process_ingest_item db url language s hv =
        ({ items := updWhere (fun x => x.id == item.id)
              (fun x => { x with label := "pending", classifier_score := some s }) db.items,
           vectors := db.vectors,
           review_queue := db.review_queue ++
             [{ id := db.review_queue.length, doc_id := item.id, status := "pending",
                priority := if 8/10 < s then 5 else 3,
                note := some ("Auto-queued: score=" ++ toString s ++ ", lang=" ++ language),
                assigned_to := none }] }, true) ∧
      (∀ x ∈ (process_ingest_item db url language s hv).1.items,
        x.id = item.id → x.label = "pending" ∧ x.classifier_score = some s)) ∧
    (s < 6/10 →
      process_ingest_item db url language s hv =
        ({ items := updWhere (fun x => x.id == item.id)
              (fun x => { x with label := "benign", classifier_score := some s }) db.items,
           vectors := db.vectors,
           review_queue := db.review_queue }, true) ∧
      (process_ingest_item db url language s hv).1.vectors = db.vectors) := by
  refine ⟨⟨?_, ?_, ?_, ?_⟩, ?_, ?_, ?_⟩
  · with_unfolding_all decide
  · with_unfolding_all decide
  · with_unfolding_all decide
  · with_unfolding_all decide
  · intro hts
    have heq := process_ingest_item_scam_eq db url language s hv item h hts
    refine ⟨heq, ?_, ?_⟩
    · rw [heq]
      exact ⟨{ doc_id := item.id, embedding := generate_embedding hv },
        List.mem_append_right _ (List.mem_singleton.mpr rfl),
        rfl, length_generate_embedding hv⟩
    · rw [heq]
      intro x hx hid
      rcases mem_updWhere _ _ _ _ hx with ⟨y, _, _, rfl⟩ | ⟨_, hpx⟩
      · exact ⟨rfl, rfl⟩
      · rw [hid] at hpx
        simp at hpx
  · intro h6 hlt
    have heq := process_ingest_item_pending_eq db url language s hv item h
      (not_le.mpr hlt) h6
    refine ⟨heq, ?_⟩
    rw [heq]
    intro x hx hid
    rcases mem_updWhere _ _ _ _ hx with ⟨y, _, _, rfl⟩ | ⟨_, hpx⟩
    · exact ⟨rfl, rfl⟩
    · rw [hid] at hpx
      simp at hpx
  · intro hlow
    have heq := process_ingest_item_benign_eq db url language s hv item h
      (not_le.mpr (lt_of_lt_of_le hlow (review_cutoff_le_threshold language)))
      (not_le.mpr hlow)
    exact ⟨heq, by rw [heq]⟩

set_option maxRecDepth 8000 in
/-- Witness for C4: the sample database, English, and score 0.95 ≥ 0.92 —
the item is relabelled `scam` and a 384-dimensional vector row appears. -/
theorem ingest_classification_routing_witness :
    sample_db.items.find? (fun it => it.url == "u") = some sample_item ∧
    process_ingest_item sample_db "u" "en" (95/100) [] =
      ({ items := [{ id := 1, url := "u", clean_text := "lottery text",
                     label := "scam", classifier_score := some (95/100) }],
         vectors := [{ doc_id := 1, embedding := generate_embedding [] }],
         review_queue := [] }, true) := by
  constructor
  · with_unfolding_all decide
  · have h := ((ingest_classification_routing sample_db "u" "en" (95/100) [] sample_item
      (by with_unfolding_all decide)).2.1 (by with_unfolding_all decide)).1
    rw [h]
    with_unfolding_all decide

/-! ## C5 — scam-implies-vector invariant -/

/-- C5 counterexample: in a state satisfying the invariant, the reviewer
approve action on a pending entry sets the item's label to `scam` but
inserts no vector row (the source carries only a comment in its place), so
the invariant fails after the operation. -/
theorem scam_vector_approve_counterexample :
    ScamHasVector review_db ∧
    (review_action review_db 2 "approve" none 9).2 = ApiResult.success "approve" ∧
    ¬ ScamHasVector (review_action review_db 2 "approve" none 9).1 := by
  refine ⟨?_, ?_, ?_⟩
  · intro it hit hlab
    simp only [review_db, List.mem_singleton] at hit
    rw [hit] at hlab
    exact absurd hlab (by decide)
  · with_unfolding_all decide
  · have hdb : (review_action review_db 2 "approve" none 9).1 =
        { items := [{ id := 1, url := "u", clean_text := "txt", label := "scam",
                      classifier_score := some (7/10) }],
          vectors := [],
          review_queue := [{ id := 2, doc_id := 1, status := "approve", priority := 3,
                             note := none, assigned_to := some 9 }] } := by
      with_unfolding_all decide
    rw [hdb]
    intro hcontra
    obtain ⟨v, hv, -⟩ := hcontra
      { id := 1, url := "u", clean_text := "txt", label := "scam",
        classifier_score := some (7/10) } (List.mem_singleton.mpr rfl) rfl
    simp at hv

/-- C5 (amended).  The scam-implies-vector invariant (every `scam`-labelled
item has a vector row of the configured dimension 384) is preserved by the
ingest worker's classification path — whose scam branch inserts the vector
row it requires — but not by the reviewer approve action, which relabels
to `scam` without touching the vector store (see the counterexample). -/
theorem ingest_preserves_scam_vector (db : DB) (url language : String)
    (s : ℚ) (hv : List ℚ) (hinv : ScamHasVector db) :
    ScamHasVector (process_ingest_item db url language s hv).1 := by
  cases h : db.items.find? (fun it => it.url == url) with
  | none => rw [process_ingest_item_none_eq db url language s hv h]; exact hinv
  | some item =>
    by_cases hts : threshold_for language ≤ s
    · rw [process_ingest_item_scam_eq db url language s hv item h hts]
      intro x hx hlab
      rcases mem_updWhere _ _ _ _ hx with ⟨y, hy, hpy, rfl⟩ | ⟨hxl, _⟩
      · refine ⟨{ doc_id := item.id, embedding := generate_embedding hv },
          List.mem_append_right _ (List.mem_singleton.mpr rfl), ?_,
          length_generate_embedding hv⟩
        exact (eq_of_beq hpy).symm
      · obtain ⟨v, hvmem, hvp⟩ := hinv x hxl hlab
        exact ⟨v, List.mem_append_left _ hvmem, hvp⟩
    · by_cases h6 : (6/10 : ℚ) ≤ s
      · rw [process_ingest_item_pending_eq db url language s hv item h hts h6]
        intro x hx hlab
        rcases mem_updWhere _ _ _ _ hx with ⟨y, hy, hpy, rfl⟩ | ⟨hxl, _⟩
        · exact absurd hlab (by simp)
        · obtain ⟨v, hvmem, hvp⟩ := hinv x hxl hlab
          exact ⟨v, hvmem, hvp⟩
      · rw [process_ingest_item_benign_eq db url language s hv item h hts h6]
        intro x hx hlab
        rcases mem_updWhere _ _ _ _ hx with ⟨y, hy, hpy, rfl⟩ | ⟨hxl, _⟩
        · exact absurd hlab (by simp)
        · obtain ⟨v, hvmem, hvp⟩ := hinv x hxl hlab
          exact ⟨v, hvmem, hvp⟩

/-- Witness for C5 (amended) on the sample database at a scam-level
score. -/
theorem ingest_preserves_scam_vector_witness :
    ScamHasVector sample_db ∧
    ScamHasVector (process_ingest_item sample_db "u" "en" (95/100) []).1 :=
  ⟨by
    intro it hit hlab
    simp only [sample_db, List.mem_singleton] at hit
    rw [hit] at hlab
    exact absurd hlab (by decide),
   ingest_preserves_scam_vector sample_db "u" "en" (95/100) []
     (by
       intro it hit hlab
       simp only [sample_db, List.mem_singleton] at hit
       rw [hit] at hlab
       exact absurd hlab (by decide))⟩

/-! ## C2 — review state machine -/

/-- C2 counterexample: approving the same pending entry twice.  Both calls
return success (the second is **not** a `Conflict`), and the stored status
is the action string `"approve"`, not `"approved"`. -/
theorem review_double_approve_counterexample :
    (review_action review_db₂ 2 "approve" none 100).2 = ApiResult.success "approve" ∧
    (review_action (review_action review_db₂ 2 "approve" none 100).1
        2 "approve" none 200).2 = ApiResult.success "approve" ∧
    (review_action (review_action review_db₂ 2 "approve" none 100).1
        2 "approve" none 200).2 ≠ ApiResult.conflict ∧
    ((review_action (review_action review_db₂ 2 "approve" none 100).1
        2 "approve" none 200).1.review_queue.find? (fun r => r.id == 2)).map
      (fun r => r.status) = some "approve" := by
  refine ⟨?_, ?_, ?_, ?_⟩ <;> with_unfolding_all decide

/-- C2 (amended).  `review_action` enforces no transition discipline: on any
existing entry (with an existing item) every action succeeds regardless of
the current status, setting the entry's status to the action string
(`approve`/`reject`/`escalate`, not the past-tense state names), so a
second approve succeeds exactly like the first and no `Conflict` is ever
returned by `review_action`; only `assign_review` reports a conflict, and
it does so exactly when the entry is already assigned to a different
reviewer. -/
theorem review_action_no_status_check (db : DB) (rid : Nat) (action : String)
    (note : Option String) (reviewer : Nat) (r : ReviewRow) (it : ItemRow)
    (hr : db.review_queue.find? (fun x => x.id == rid) = some r)
    (hi : db.items.find? (fun x => x.id == r.doc_id) = some it) :
    (review_action db rid action note reviewer).2 = ApiResult.success action ∧
    (review_action db rid action note reviewer).2 ≠ ApiResult.conflict ∧
    (review_action db rid action note reviewer).1.review_queue.find?
        (fun x => x.id == rid) =
      some { r with
             status := action
             assigned_to := some reviewer
             note := note
             priority := if action == "escalate" then 10 else r.priority } ∧
    (∀ u₂ : Nat, (assign_review db rid u₂).2 =
      (if r.assigned_to.isSome && r.assigned_to != some u₂ then ApiResult.conflict
       else ApiResult.success "in_review")) := by
  refine ⟨?_, ?_, ?_, ?_⟩
  · simp only [review_action, hr, hi]
  · simp only [review_action, hr, hi]
    intro hcontra
    cases hcontra
  · simp only [review_action, hr, hi]
    rw [find?_updWhere (fun x : ReviewRow => x.id == rid) (fun x => { x with status := action, assigned_to := some reviewer, note := note, priority := if action == "escalate" then 10 else x.priority }) db.review_queue (fun x => rfl), hr]
    rfl
  · intro u₂
    simp only [assign_review, hr]
    by_cases hc : (r.assigned_to.isSome && r.assigned_to != some u₂) = true
    · rw [if_pos hc, if_pos hc]
    · rw [if_neg hc, if_neg hc]

/-- Witness for C2 (amended) at the concrete one-entry database. -/
theorem review_action_no_status_check_witness :
    review_db₂.review_queue.find? (fun x => x.id == 2) =
      some { id := 2, doc_id := 1, status := "pending", priority := 3,
             note := none, assigned_to := none } ∧
    (review_action review_db₂ 2 "approve" none 100).2 = ApiResult.success "approve" := by
  constructor
  · with_unfolding_all decide
  · exact (review_action_no_status_check review_db₂ 2 "approve" none 100
      { id := 2, doc_id := 1, status := "pending", priority := 3,
        note := none, assigned_to := none }
      { id := 1, url := "u", clean_text := "txt", label := "pending",
        classifier_score := some (7/10) }
      (by with_unfolding_all decide) (by with_unfolding_all decide)).1

/-! ## C3 — verdict enum -/

/-- C3 counterexample: the LLM output parses to a JSON object whose
`verdict` is the arbitrary string `"BANANA"`; `check_claim` passes it
through verbatim, so the response's verdict is raw LLM text outside the
five-value enum. -/
theorem check_verdict_claimed_counterexample :
    check_claim_verdict true [("verdict", Json.str "BANANA")] (Json.arr []) =
      Json.str "BANANA" ∧
    isEnumVerdict (check_claim_verdict true [("verdict", Json.str "BANANA")]
      (Json.arr [])) = false ∧
    verdict_enum.contains "BANANA" = false := by
  exact ⟨rfl, rfl, rfl⟩

/-- C3 (amended).  The verdict of the check response is `UNVERIFIED` (hence
in the enum) when no LLM provider is reachable or when the LLM output did
not parse to a non-empty JSON object; but when it did parse, the parsed
dictionary's `verdict` value is passed through verbatim (defaulting to
`UNVERIFIED` only when the key is absent), so an arbitrary verdict string
reaches the caller unchecked. -/
theorem check_verdict_amended_spec (available : Bool)
    (parsed : List (String × Json)) (evidence : Json) :
    check_claim_verdict available parsed evidence =
      (if available then
        (if parsed.isEmpty then Json.str "UNVERIFIED"
         else pyDictGet parsed "verdict" (Json.str "UNVERIFIED"))
       else Json.str "UNVERIFIED") ∧
    isEnumVerdict (Json.str "UNVERIFIED") = true := by
  refine ⟨?_, rfl⟩
  unfold check_claim_verdict call_llm_explainer
  rw [pyDictGet_setdefault_ne _ _ _ _ _ (by decide)]
  rw [pyDictGet_setdefault_ne _ _ _ _ _ (by decide)]
  rw [pyDictGet_setdefault_ne _ _ _ _ _ (by decide)]
  rw [pyDictGet_setdefault_ne _ _ _ _ _ (by decide)]
  rw [pyDictGet_setdefault_ne _ _ _ _ _ (by decide)]
  rw [pyDictGet_setdefault_ne _ _ _ _ _ (by decide)]
  rw [pyDictGet_setdefault_same]
  unfold unified_generate_fact_check_response
  cases available with
  | false => rfl
  | true =>
    rw [if_pos rfl, if_pos rfl]
    unfold generate_fact_check_response
    rw [pyDictGet_setdefault_ne _ _ _ _ _ (by decide)]
    rw [pyDictGet_setdefault_ne _ _ _ _ _ (by decide)]
    rw [pyDictGet_setdefault_ne _ _ _ _ _ (by decide)]
    rw [pyDictGet_setdefault_ne _ _ _ _ _ (by decide)]
    rw [pyDictGet_setdefault_ne _ _ _ _ _ (by decide)]
    rw [pyDictGet_setdefault_same]
    by_cases hp : parsed.isEmpty
    · rw [if_pos hp, if_pos hp]
      rfl
    · rw [if_neg hp, if_neg hp]

/-- Witness for C3 (amended) at a parsed dictionary carrying a `FALSE`
verdict with a reachable provider. -/
theorem check_verdict_amended_spec_witness :
    check_claim_verdict true [("verdict", Json.str "FALSE")] (Json.arr []) =
      (if true then
        (if ([("verdict", Json.str "FALSE")] : List (String × Json)).isEmpty then
          Json.str "UNVERIFIED"
         else pyDictGet [("verdict", Json.str "FALSE")] "verdict"
           (Json.str "UNVERIFIED"))
       else Json.str "UNVERIFIED") ∧
    isEnumVerdict (Json.str "UNVERIFIED") = true :=
  check_verdict_amended_spec true [("verdict", Json.str "FALSE")] (Json.arr [])

/-! ## C9 — retrieved ids -/

/-- C9.  For every check request, `retrieved_ids` is exactly the list of
ids of the evidence items converted and passed to the LLM, in the same
order — the LLM input and the id list are both images of the one retrieved
evidence list — and its length is at most the retrieval `top_k = 6`. -/
theorem check_retrieved_ids_exact (claim_text language : String) :
    (check_claim_retrieval claim_text language).retrieved_ids =
      (check_claim_retrieval claim_text language).evidence.map (fun e => e.id) ∧
    (check_claim_retrieval claim_text language).llm_input =
      evidence_for_llm (check_claim_retrieval claim_text language).evidence ∧
    (check_claim_retrieval claim_text language).llm_input.length =
      (check_claim_retrieval claim_text language).retrieved_ids.length ∧
    (check_claim_retrieval claim_text language).retrieved_ids.length ≤ 6 := by
  refine ⟨rfl, rfl, ?_, ?_⟩
  · simp [check_claim_retrieval, evidence_for_llm]
  · have h3 : (check_claim_retrieval claim_text language).retrieved_ids.length =
        ((List.range (min 6 3)).map (fun i =>
          "evidence_" ++ toString i)).length := by
      simp [check_claim_retrieval, search_similar_claims]
      with_unfolding_all decide
    rw [h3]
    decide

end FactForge
